import Mathlib

/-!
Verification of the EJDB Node.js binding (`src/ejdb.js`) against its
natural-language specification.  The binding's JavaScript value universe is
shallowly embedded as `Ejdb.JSValue`; each wrapper function of the binding is
translated into an executable Lean definition over that universe, and the
behaviour of the native engine (which is not part of this repository) is
either left abstract (a function/`Except` parameter) or, where a claim needs
its contract, modelled from the specification's words (such definitions carry
a `Modelled from the spec:` doc comment).
-/

namespace Ejdb

/-- JavaScript values, as far as the binding inspects them: `undefined`,
`null`, booleans, numbers (the binding only ever compares them for
truthiness and equality, so `Int` suffices; `NaN` never arises in the
modelled paths), strings, functions (identified by an opaque tag, since the
binding only ever stores and forwards them), plain objects (ordered field
lists) and arrays. -/
inductive JSValue where
  | vundefined
  | vnull
  | vbool (b : Bool)
  | vnum (n : Int)
  | vstr (s : String)
  | vfun (id : Nat)
  | vobj (fields : List (String × JSValue))
  | varr (elems : List JSValue)
deriving Repr

mutual

/-- Decidable structural equality on embedded values.  JavaScript strict
equality on primitives is value equality; on objects it is reference
equality, which a value model cannot express — the binding only ever
compares a freshly read property against an engine-produced OID string, for
which structural equality gives the same observable results. -/
def decEqVal : (a b : JSValue) → Decidable (a = b)
  | .vundefined, .vundefined => isTrue rfl
  | .vnull, .vnull => isTrue rfl
  | .vbool a, .vbool b =>
    match decEq a b with
    | isTrue h => isTrue (by rw [h])
    | isFalse h => isFalse (by intro hh; cases hh; exact h rfl)
  | .vnum a, .vnum b =>
    match decEq a b with
    | isTrue h => isTrue (by rw [h])
    | isFalse h => isFalse (by intro hh; cases hh; exact h rfl)
  | .vstr a, .vstr b =>
    match decEq a b with
    | isTrue h => isTrue (by rw [h])
    | isFalse h => isFalse (by intro hh; cases hh; exact h rfl)
  | .vfun a, .vfun b =>
    match decEq a b with
    | isTrue h => isTrue (by rw [h])
    | isFalse h => isFalse (by intro hh; cases hh; exact h rfl)
  | .vobj fs, .vobj gs =>
    match decEqFields fs gs with
    | isTrue h => isTrue (by rw [h])
    | isFalse h => isFalse (by intro hh; cases hh; exact h rfl)
  | .varr es, .varr fs =>
    match decEqList es fs with
    | isTrue h => isTrue (by rw [h])
    | isFalse h => isFalse (by intro hh; cases hh; exact h rfl)
  | .vundefined, .vnull | .vundefined, .vbool _ | .vundefined, .vnum _ | .vundefined, .vstr _
  | .vundefined, .vfun _ | .vundefined, .vobj _ | .vundefined, .varr _
  | .vnull, .vundefined | .vnull, .vbool _ | .vnull, .vnum _ | .vnull, .vstr _
  | .vnull, .vfun _ | .vnull, .vobj _ | .vnull, .varr _
  | .vbool _, .vundefined | .vbool _, .vnull | .vbool _, .vnum _ | .vbool _, .vstr _
  | .vbool _, .vfun _ | .vbool _, .vobj _ | .vbool _, .varr _
  | .vnum _, .vundefined | .vnum _, .vnull | .vnum _, .vbool _ | .vnum _, .vstr _
  | .vnum _, .vfun _ | .vnum _, .vobj _ | .vnum _, .varr _
  | .vstr _, .vundefined | .vstr _, .vnull | .vstr _, .vbool _ | .vstr _, .vnum _
  | .vstr _, .vfun _ | .vstr _, .vobj _ | .vstr _, .varr _
  | .vfun _, .vundefined | .vfun _, .vnull | .vfun _, .vbool _ | .vfun _, .vnum _
  | .vfun _, .vstr _ | .vfun _, .vobj _ | .vfun _, .varr _
  | .vobj _, .vundefined | .vobj _, .vnull | .vobj _, .vbool _ | .vobj _, .vnum _
  | .vobj _, .vstr _ | .vobj _, .vfun _ | .vobj _, .varr _
  | .varr _, .vundefined | .varr _, .vnull | .varr _, .vbool _ | .varr _, .vnum _
  | .varr _, .vstr _ | .varr _, .vfun _ | .varr _, .vobj _ =>
    isFalse (by intro h; exact JSValue.noConfusion h)

/-- Decidable equality on element lists (array contents). -/
def decEqList : (a b : List JSValue) → Decidable (a = b)
  | [], [] => isTrue rfl
  | [], _ :: _ => isFalse (by intro h; exact List.noConfusion h)
  | _ :: _, [] => isFalse (by intro h; exact List.noConfusion h)
  | a :: as, b :: bs =>
    match decEqVal a b, decEqList as bs with
    | isTrue h1, isTrue h2 => isTrue (by rw [h1, h2])
    | isFalse h1, _ => isFalse (by intro hh; cases hh; exact h1 rfl)
    | _, isFalse h2 => isFalse (by intro hh; cases hh; exact h2 rfl)

/-- Decidable equality on field lists (object contents). -/
def decEqFields : (a b : List (String × JSValue)) → Decidable (a = b)
  | [], [] => isTrue rfl
  | [], _ :: _ => isFalse (by intro h; exact List.noConfusion h)
  | _ :: _, [] => isFalse (by intro h; exact List.noConfusion h)
  | (k, a) :: as, (l, b) :: bs =>
    match decEq k l, decEqVal a b, decEqFields as bs with
    | isTrue hk, isTrue h1, isTrue h2 => isTrue (by rw [hk, h1, h2])
    | isFalse hk, _, _ => isFalse (by intro hh; cases hh; exact hk rfl)
    | _, isFalse h1, _ => isFalse (by intro hh; cases hh; exact h1 rfl)
    | _, _, isFalse h2 => isFalse (by intro hh; cases hh; exact h2 rfl)

end

instance : DecidableEq JSValue := decEqVal

instance {ε α : Type} [DecidableEq ε] [DecidableEq α] :
    DecidableEq (Except ε α) := fun a b =>
  match a, b with
  | .ok x, .ok y =>
    match decEq x y with
    | isTrue h => isTrue (by rw [h])
    | isFalse h => isFalse (by intro hh; cases hh; exact h rfl)
  | .error x, .error y =>
    match decEq x y with
    | isTrue h => isTrue (by rw [h])
    | isFalse h => isFalse (by intro hh; cases hh; exact h rfl)
  | .ok _, .error _ => isFalse (by intro h; exact Except.noConfusion h)
  | .error _, .ok _ => isFalse (by intro h; exact Except.noConfusion h)

/-- JavaScript `typeof` operator restricted to the embedded values. -/
def typeof : JSValue → String
  | .vundefined => "undefined"
  | .vnull => "object"
  | .vbool _ => "boolean"
  | .vnum _ => "number"
  | .vstr _ => "string"
  | .vfun _ => "function"
  | .vobj _ => "object"
  | .varr _ => "object"

/-- JavaScript truthiness: `undefined`, `null`, `false`, `0` and `""` are
falsy; every object, array and function is truthy. -/
def truthy : JSValue → Bool
  | .vundefined => false
  | .vnull => false
  | .vbool b => b
  | .vnum n => n != 0
  | .vstr s => s != ""
  | .vfun _ => true
  | .vobj _ => true
  | .varr _ => true

/-- `Array.isArray`. -/
def isArray : JSValue → Bool
  | .varr _ => true
  | _ => false

/-- Strict equality with `undefined` (`x !== undefined` is its negation). -/
def isUndefined : JSValue → Bool
  | .vundefined => true
  | _ => false

/-- Loose equality with `null` (`x == null` holds exactly for `null` and
`undefined`). -/
def looseNull : JSValue → Bool
  | .vnull => true
  | .vundefined => true
  | _ => false

/-- JavaScript `a || b`. -/
def jsOr (a b : JSValue) : JSValue :=
  if truthy a then a else b

/-- First-match lookup in an object's field list; absent keys read as
`undefined`. -/
def lookupField : List (String × JSValue) → String → JSValue
  | [], _ => .vundefined
  | (k, v) :: rest, key => if k = key then v else lookupField rest key

/-- JavaScript property assignment on an object's field list: an existing
key is overwritten in place, a new key is appended. -/
def setField (fs : List (String × JSValue)) (key : String) (x : JSValue) :
    List (String × JSValue) :=
  if fs.any (fun p => p.1 = key) then
    fs.map (fun p => if p.1 = key then (key, x) else p)
  else fs ++ [(key, x)]

/-- Property read `v[key]`: defined fields of plain objects; everything the
binding reads on non-objects (string-keyed reads on primitives or arrays)
yields `undefined` in the inspected paths. -/
def getProp (v : JSValue) (key : String) : JSValue :=
  match v with
  | .vobj fs => lookupField fs key
  | _ => .vundefined

/-- Property write `v[key] = x`.  Writes on primitives are silent no-ops in
non-strict mode, which is what the binding runs in; string-keyed expando
properties on arrays are not modelled (the binding never saves arrays as
documents). -/
def jsSetProp (v : JSValue) (key : String) (x : JSValue) : JSValue :=
  match v with
  | .vobj fs => .vobj (setField fs key x)
  | other => other

/-- `arguments[i]`: indexing past the supplied argument list yields
`undefined`. -/
def argGet (args : List JSValue) (i : Nat) : JSValue :=
  args.getD i .vundefined

/-! ### `EJDB.isValidOID` (src/ejdb.js lines 81–91)

The source compares the one-character string `oid[i]` against the numeric
char codes `0x30..0x39` and `0x61..0x66` with `>=`/`<=`.  JavaScript's
relational operators coerce the string operand with `ToNumber`: a decimal
digit character becomes its numeric value (0–9), a whitespace character
becomes 0, and every other character becomes `NaN` (all comparisons with
`NaN` are false). -/

/-- JavaScript `ToNumber` applied to a one-character string: a decimal digit
(char codes 48–57) yields its digit value, whitespace yields 0, anything
else yields `NaN` (modelled as `none`). -/
def charToNumber (c : Char) : Option Nat :=
  if 48 ≤ c.toNat ∧ c.toNat ≤ 57 then some (c.toNat - 48)
  else if c.isWhitespace then some 0
  else none

/-- The loop condition of `isValidOID` at one character:
`(oid[i] >= 0x30 && oid[i] <= 0x39) || (oid[i] >= 0x61 && oid[i] <= 0x66)`
under the `ToNumber` coercion above. -/
def oidCharOK (c : Char) : Bool :=
  match charToNumber c with
  | some n => decide ((48 ≤ n ∧ n ≤ 57) ∨ (97 ≤ n ∧ n ≤ 102))
  | none => false

/-- `EJDB.isValidOID`: non-strings and strings whose length is not 24 are
rejected; otherwise the loop counts the longest prefix of characters
satisfying the (coerced) range test and the result is `i === 24`. -/
def isValidOID (v : JSValue) : Bool :=
  match v with
  | .vstr s =>
    if s.length ≠ 24 then false
    else decide ((s.data.takeWhile oidCharOK).length = 24)
  | _ => false

/-- Modelled from the spec: an OID is "represented canonically as a
24-character lowercase hexadecimal string" — 24 characters, each one of
`0`-`9` (codes 48–57) or `a`-`f` (codes 97–102). -/
def oidSpecValid (s : String) : Bool :=
  s.length = 24 &&
    s.data.all fun c =>
      decide ((48 ≤ c.toNat ∧ c.toNat ≤ 57) ∨ (97 ≤ c.toNat ∧ c.toNat ≤ 102))

/-! ### `parseQueryArgs` (src/ejdb.js lines 274–306) -/

/-- The canonical 5-tuple `[cname, qobj, orarr, hints, cb]` returned by
`parseQueryArgs`. -/
structure QArgs where
  cname : JSValue
  qobj : JSValue
  orarr : JSValue
  hints : JSValue
  cb : JSValue
deriving DecidableEq, Repr

/-- The message of the error thrown when the first argument is not a
string. -/
def cnameErr : String := "Collection name 'cname' argument must be specified"

/-- `parseQueryArgs(args)`.  The source walks `args` with a cursor `i`,
branching on `typeof`/`Array.isArray` of each argument; a thrown error is
modelled as `Except.error`.  The straight-line translation tracks, after the
first inner branch, the pending value `next` and the cursor position from
which a further argument would be consumed. -/
def parseQueryArgs (args : List JSValue) : Except String QArgs :=
  let cname := argGet args 0
  if (typeof cname == "string") = false then .error cnameErr
  else
    let next1 := argGet args 1
    let cb0 := if typeof next1 == "function" then next1 else JSValue.vundefined
    let qobj := if typeof next1 == "function" then JSValue.vundefined else next1
    let next2 := argGet args 2
    -- the `if (next !== undefined)` block, first inner branch
    let st :=
      if isUndefined next2 then (JSValue.vundefined, JSValue.vundefined, JSValue.vundefined, 3)
      else if isArray next2 then (next2, JSValue.vundefined, argGet args 3, 4)
      else if typeof next2 == "object" then (JSValue.vnull, next2, argGet args 3, 4)
      else (JSValue.vundefined, JSValue.vundefined, next2, 3)
    let orarr := st.1
    let hints1 := st.2.1
    let next3 := st.2.2.1
    let i3 := st.2.2.2
    -- `if (!hints && typeof next === "object") { hints = next; next = args[i++]; }`
    let st2 :=
      if !truthy hints1 && (typeof next3 == "object") then (next3, argGet args i3)
      else (hints1, next3)
    let hints2 := st2.1
    let next4 := st2.2
    -- `if (typeof next === "function") { cb = next; }`
    let cb1 := if typeof next4 == "function" then next4 else cb0
    .ok ⟨cname, jsOr qobj (.vobj []), jsOr orarr (.varr []),
         jsOr hints2 (.vobj []), jsOr cb1 .vnull⟩

/-! ### The native query call surface

`find`, `findOne`, `update` and `count` all end in
`this._impl.query(qa[0], [qa[1]].concat(qa[2], qa[3]), flags, cb)`.
The second argument flattens array arguments of `concat` one level. -/

/-- `base.concat(v)` for a single argument: arrays are flattened one level,
everything else is appended as an element. -/
def jsConcatItem (base : List JSValue) (v : JSValue) : List JSValue :=
  match v with
  | .varr es => base ++ es
  | x => base ++ [x]

/-- `[qobj].concat(orarr, hints)`. -/
def buildQueryList (qobj orarr hints : JSValue) : List JSValue :=
  jsConcatItem (jsConcatItem [qobj] orarr) hints

/-- The `JBQRYCOUNT` flag re-exported from the native library.  Its numeric
value comes from the engine's headers; only that it is a fixed non-zero
constant matters to the binding. -/
def JBQRYCOUNT : Int := 1

/-- One invocation of the native `_impl.query`: collection name, the
flattened query list, the flags word, and the value passed in the callback
position (the user callback, `null` in synchronous mode; `update`/`count`
and the callback mode of `findOne` pass a wrapper closure around the user
callback, which the recorded `cb` field identifies by the wrapped user
value). -/
structure QueryCall where
  cname : JSValue
  qlist : List JSValue
  flags : Int
  cb : JSValue
deriving DecidableEq, Repr

/-- `EJDB.prototype.find` up to the native call: parse the arguments, then
query with `JBQRYCOUNT` exactly when `qa[3]["$onlycount"]` is truthy. -/
def findCall (args : List JSValue) : Except String QueryCall :=
  (parseQueryArgs args).map fun qa =>
    { cname := qa.cname
      qlist := buildQueryList qa.qobj qa.orarr qa.hints
      flags := if truthy (getProp qa.hints "$onlycount") then JBQRYCOUNT else 0
      cb := qa.cb }

/-- `find` in synchronous mode returns whatever the native query returns;
the native behaviour is a parameter. -/
def find (query : QueryCall → JSValue) (args : List JSValue) :
    Except String JSValue :=
  (findCall args).map query

/-- Modelled from the spec: `query(handle, collection, [...], flags) ->
Cursor | count` — with the count-only flag the native query returns only
the matched count, otherwise a cursor over the matched records. -/
def queryEngine (count : Nat) (cursor : JSValue) (qc : QueryCall) : JSValue :=
  if qc.flags == JBQRYCOUNT then .vnum count else cursor

/-- `EJDB.prototype.update` up to the native call: both the synchronous and
the callback branch query with flags `JBQRYCOUNT`. -/
def updateCall (args : List JSValue) : Except String QueryCall :=
  (parseQueryArgs args).map fun qa =>
    { cname := qa.cname
      qlist := buildQueryList qa.qobj qa.orarr qa.hints
      flags := JBQRYCOUNT
      cb := qa.cb }

/-- `EJDB.prototype.count` up to the native call: identical shape to
`update` (flags `JBQRYCOUNT` in both modes). -/
def countCall (args : List JSValue) : Except String QueryCall :=
  (parseQueryArgs args).map fun qa =>
    { cname := qa.cname
      qlist := buildQueryList qa.qobj qa.orarr qa.hints
      flags := JBQRYCOUNT
      cb := qa.cb }

/-! ### `EJDB.prototype.findOne` (src/ejdb.js lines 463–496) -/

/-- Modelled from the spec: the cursor produced by a non-count query — "a
read-only, position-addressable view over an ordered sequence" of the
matched records.  `pos` counts the records consumed by `next()`; the
current record is `docs[pos - 1]`. -/
structure Cursor where
  docs : List JSValue
  pos : Nat := 0
  closed : Bool := false
deriving DecidableEq, Repr

/-- Modelled from the spec: `Cursor#next()` moves the cursor to the next
record and returns true exactly when that record exists. -/
def Cursor.next (c : Cursor) : Bool × Cursor :=
  if c.pos < c.docs.length then (true, { c with pos := c.pos + 1 })
  else (false, c)

/-- Modelled from the spec: `Cursor#object()` retrieves the whole record at
the current position. -/
def Cursor.object (c : Cursor) : JSValue :=
  c.docs.getD (c.pos - 1) .vnull

/-- Modelled from the spec: `Cursor#close()` releases the cursor. -/
def Cursor.close (c : Cursor) : Cursor :=
  { c with closed := true }

/-- Observable events of a `findOne` run, in program order: cursor
advancement, record materialization, cursor close, and the two delivery
forms (callback invocation / synchronous return). -/
inductive Ev where
  | nextEv (b : Bool)
  | objectEv (v : JSValue)
  | closeEv
  | cbEv (err res : JSValue)
  | retEv (res : JSValue)
deriving DecidableEq, Repr

def isCloseEv : Ev → Bool
  | .closeEv => true
  | _ => false

/-- An event that delivers the result to the caller: a callback invocation
or the synchronous return. -/
def isDeliverEv : Ev → Bool
  | .cbEv _ _ => true
  | .retEv _ => true
  | _ => false

/-- The cursor-close event happens strictly before the first delivery of
the result. -/
def closedBeforeDelivered (tr : List Ev) : Bool :=
  match List.findIdx? isCloseEv tr, List.findIdx? isDeliverEv tr with
  | some i, some j => decide (i < j)
  | _, _ => false

/-- The first delivery of the result happens strictly before any
cursor-close event. -/
def deliveredBeforeClosed (tr : List Ev) : Bool :=
  match List.findIdx? isDeliverEv tr, List.findIdx? isCloseEv tr with
  | some i, some j => decide (i < j)
  | _, _ => false

/-- Everything observable about one `findOne` run: the native query call it
made, the post-call values of the three caller-supplied query arguments
(`qa[1]`, `qa[2]`, and the in-place mutated `qa[3]`), the delivered result,
the final state of the internal cursor, and the ordered event trace. -/
structure FindOneOutcome where
  call : QueryCall
  qobjAfter : JSValue
  orarrAfter : JSValue
  hintsAfter : JSValue
  result : JSValue
  finalCursor : Cursor
  trace : List Ev
deriving DecidableEq, Repr

/-- `EJDB.prototype.findOne`.  After `parseQueryArgs`, the source executes
`qa[3]["$max"] = 1` (mutating the hints object in place) and queries with
flags 0; `matched` is the record sequence of the cursor the native query
yields (the native engine is otherwise abstract).  In callback mode the
source runs `cb(null, cursor.object())` inside `try` and `cursor.close()`
in the `finally`, and does not close the cursor at all on the empty branch;
in synchronous mode it closes the cursor before returning.  The
`cursor && typeof cursor === "object"` guard of the synchronous branch
always holds for the modelled cursor. -/
def findOne (matched : List JSValue) (args : List JSValue) :
    Except String FindOneOutcome :=
  match parseQueryArgs args with
  | .error e => .error e
  | .ok qa =>
    let hints2 := jsSetProp qa.hints "$max" (.vnum 1)
    let qc : QueryCall :=
      { cname := qa.cname, qlist := buildQueryList qa.qobj qa.orarr hints2
        flags := 0, cb := qa.cb }
    let c0 : Cursor := { docs := matched }
    if truthy qa.cb then
      let n := c0.next
      if n.1 then
        let d := n.2.object
        .ok { call := qc, qobjAfter := qa.qobj, orarrAfter := qa.orarr
              hintsAfter := hints2, result := d, finalCursor := n.2.close
              trace := [.nextEv true, .objectEv d, .cbEv .vnull d, .closeEv] }
      else
        .ok { call := qc, qobjAfter := qa.qobj, orarrAfter := qa.orarr
              hintsAfter := hints2, result := .vnull, finalCursor := n.2
              trace := [.nextEv false, .cbEv .vnull .vnull] }
    else
      let n := c0.next
      if n.1 then
        let d := n.2.object
        .ok { call := qc, qobjAfter := qa.qobj, orarrAfter := qa.orarr
              hintsAfter := hints2, result := d, finalCursor := n.2.close
              trace := [.nextEv true, .objectEv d, .closeEv, .retEv d] }
      else
        .ok { call := qc, qobjAfter := qa.qobj, orarrAfter := qa.orarr
              hintsAfter := hints2, result := .vnull, finalCursor := n.2.close
              trace := [.nextEv false, .closeEv, .retEv .vnull] }

/-! ### `EJDB.prototype.save` (src/ejdb.js lines 203–236) -/

/-- Everything observable about one `save` run: the value returned to the
caller, the final contents of the (in place mutated) document array, the
native save invocations made (collection name, documents, options), and
the user-callback invocation if one happened. -/
structure SaveOutcome where
  ret : JSValue
  docsOut : List JSValue
  engineCalls : List (String × List JSValue × JSValue)
  cbArgs : Option (JSValue × JSValue)
deriving DecidableEq, Repr

/-- The `postprocess` closure of `save`: for every index (the source loop
runs from the last index down to 0, touching each index once), a document
that is not loosely `null` and whose `_id` differs from the OID at its
position gets `_id` assigned that OID. -/
def postprocess (jsarr oids : List JSValue) : List JSValue :=
  (List.range jsarr.length).map fun i =>
    let so := jsarr.getD i .vundefined
    if looseNull so then so
    else if getProp so "_id" = oids.getD i .vundefined then so
    else jsSetProp so "_id" (oids.getD i .vundefined)

/-- `EJDB.prototype.save`.  `engineResult` stands for what the native
`_impl.save` does with this call: the OID list it produces, or the error it
raises (thrown in synchronous mode, passed as the truthy first callback
argument in callback mode).  The native save's own return value in callback
mode is modelled as `undefined`.  A falsy `jsarr` returns `[]` before
anything else happens; a non-array `jsarr` is wrapped; a function in the
`opts` position is shifted into `cb`; the mode is synchronous exactly when
the (shifted) `cb` is loosely `null`. -/
def save (engineResult : Except JSValue (List JSValue)) (cname : String)
    (jsarr opts cb : JSValue) : Except JSValue SaveOutcome :=
  if truthy jsarr = false then
    .ok { ret := .varr [], docsOut := [], engineCalls := [], cbArgs := none }
  else
    let arr := match jsarr with
      | .varr es => es
      | v => [v]
    let st := if typeof opts == "function" then (JSValue.vnull, opts)
              else (opts, cb)
    let optsArg := jsOr st.1 (.vobj [])
    let cb2 := st.2
    if looseNull cb2 then
      match engineResult with
      | .ok oids =>
        let arr2 := postprocess arr oids
        .ok { ret := .varr arr2, docsOut := arr2
              engineCalls := [(cname, arr, optsArg)], cbArgs := none }
      | .error e => .error e
    else
      match engineResult with
      | .ok oids =>
        let arr2 := postprocess arr oids
        .ok { ret := .vundefined, docsOut := arr2
              engineCalls := [(cname, arr, optsArg)]
              cbArgs := some (.vnull, .varr oids) }
      | .error e =>
        .ok { ret := .vundefined, docsOut := arr
              engineCalls := [(cname, arr, optsArg)]
              cbArgs := some (e, .vundefined) }

/-! ### `dropCollection` / `removeCollection` (src/ejdb.js lines 144–175) -/

/-- The no-op callback `function() {}` substituted for a falsy `cb`. -/
def noopFn : JSValue := .vfun 0

/-- Modelled from the spec: the native `removeCollection(handle, name,
prune)` (§6) declares no return value; its return is `undefined`. -/
def implRemoveCollection (_cname _prune _cb : JSValue) : JSValue :=
  .vundefined

/-- Everything observable about one `dropCollection`/`removeCollection`
run: the three arguments forwarded to the native `removeCollection` and
the value returned to the caller. -/
structure DropOutcome where
  engineCname : JSValue
  enginePrune : JSValue
  engineCb : JSValue
  ret : JSValue
deriving DecidableEq, Repr

/-- `EJDB.prototype.dropCollection`: with exactly two arguments the second
shifts into `cb` and `prune` becomes `false`; a falsy `cb` is replaced by a
no-op; the native call receives `!!prune`. -/
def dropCollection (args : List JSValue) : DropOutcome :=
  let cname := argGet args 0
  let st := if args.length = 2 then (JSValue.vbool false, argGet args 1)
            else (argGet args 1, argGet args 2)
  let prune1 := st.1
  let cb1 := st.2
  let cb2 := if truthy cb1 = false then noopFn else cb1
  { engineCname := cname
    enginePrune := .vbool (truthy prune1)
    engineCb := cb2
    ret := implRemoveCollection cname (.vbool (truthy prune1)) cb2 }

/-- `EJDB.prototype.removeCollection`: forwards its entire `arguments`
object to `dropCollection` and discards the result, so its own return
value is `undefined`. -/
def removeCollection (args : List JSValue) : DropOutcome :=
  let d := dropCollection args
  { d with ret := .vundefined }

/-! ## Helper lemmas -/

theorem lookup_map_set (key : String) (x : JSValue) :
    ∀ fs : List (String × JSValue), fs.any (fun p => p.1 = key) = true →
      lookupField (fs.map (fun p => if p.1 = key then (key, x) else p)) key
        = x := by
  intro fs
  induction fs with
  | nil => intro h; cases h
  | cons p rest ih =>
    intro h
    obtain ⟨pk, pv⟩ := p
    by_cases hp : pk = key
    · rw [List.map_cons, if_pos (by simpa using hp)]
      simp [lookupField]
    · have h' : rest.any (fun p => p.1 = key) = true := by
        simp only [List.any_cons, Bool.or_eq_true, decide_eq_true_eq] at h
        rcases h with h | h
        · exact absurd h hp
        · simpa using h
      rw [List.map_cons, if_neg (by simpa using hp)]
      simp only [lookupField, if_neg hp]
      exact ih h'

theorem lookup_map_set_ne (key k : String) (x : JSValue) (hne : k ≠ key) :
    ∀ fs : List (String × JSValue),
      lookupField (fs.map (fun p => if p.1 = key then (key, x) else p)) k
        = lookupField fs k := by
  intro fs
  induction fs with
  | nil => rfl
  | cons p rest ih =>
    obtain ⟨pk, pv⟩ := p
    by_cases hp : pk = key
    · rw [List.map_cons, if_pos (by simpa using hp)]
      have hk : ¬ key = k := fun hh => hne hh.symm
      have hpk : ¬ pk = k := by rw [hp]; exact hk
      simp only [lookupField, if_neg hk, if_neg hpk]
      exact ih
    · rw [List.map_cons, if_neg (by simpa using hp)]
      by_cases hpk : pk = k
      · simp [lookupField, hpk]
      · simp only [lookupField, if_neg hpk]
        exact ih

theorem lookup_append_single_self (key : String) (x : JSValue) :
    ∀ fs : List (String × JSValue), fs.any (fun p => p.1 = key) = false →
      lookupField (fs ++ [(key, x)]) key = x := by
  intro fs
  induction fs with
  | nil => intro _; simp [lookupField]
  | cons p rest ih =>
    intro h
    obtain ⟨pk, pv⟩ := p
    simp only [List.any_cons, Bool.or_eq_false_iff, decide_eq_false_iff_not]
      at h
    simp only [List.cons_append, lookupField, if_neg h.1]
    exact ih h.2

theorem lookup_append_single_ne (key k : String) (x : JSValue)
    (hne : k ≠ key) :
    ∀ fs : List (String × JSValue),
      lookupField (fs ++ [(key, x)]) k = lookupField fs k := by
  intro fs
  induction fs with
  | nil =>
    have hk : ¬ key = k := fun hh => hne hh.symm
    simp [lookupField, hk]
  | cons p rest ih =>
    obtain ⟨pk, pv⟩ := p
    by_cases hpk : pk = k
    · simp [lookupField, hpk]
    · simp only [List.cons_append, lookupField, if_neg hpk]
      exact ih

theorem lookupField_setField_self (fs : List (String × JSValue))
    (key : String) (x : JSValue) :
    lookupField (setField fs key x) key = x := by
  unfold setField
  by_cases h : fs.any (fun p => p.1 = key) = true
  · rw [if_pos h]
    exact lookup_map_set key x fs h
  · have hf : fs.any (fun p => p.1 = key) = false := Bool.eq_false_iff.mpr h
    rw [if_neg h]
    exact lookup_append_single_self key x fs hf

theorem lookupField_setField_ne (fs : List (String × JSValue))
    (key k : String) (x : JSValue) (hne : k ≠ key) :
    lookupField (setField fs key x) k = lookupField fs k := by
  unfold setField
  by_cases h : fs.any (fun p => p.1 = key) = true
  · rw [if_pos h]
    exact lookup_map_set_ne key k x hne fs
  · rw [if_neg h]
    exact lookup_append_single_ne key k x hne fs

theorem getProp_jsSetProp_self (fs : List (String × JSValue)) (key : String)
    (x : JSValue) :
    getProp (jsSetProp (.vobj fs) key x) key = x := by
  simp [jsSetProp, getProp, lookupField_setField_self]

theorem getProp_jsSetProp_ne (v : JSValue) (key k : String) (x : JSValue)
    (hne : k ≠ key) :
    getProp (jsSetProp v key x) k = getProp v k := by
  cases v <;> simp only [jsSetProp, getProp]
  exact lookupField_setField_ne _ _ _ _ hne

theorem oidCharOK_false (c : Char) : oidCharOK c = false := by
  unfold oidCharOK charToNumber
  by_cases h : 48 ≤ c.toNat ∧ c.toNat ≤ 57
  · rw [if_pos h]
    simp only [decide_eq_false_iff_not]
    omega
  · rw [if_neg h]
    by_cases hw : c.isWhitespace
    · rw [if_pos hw]
      simp
    · rw [if_neg hw]

theorem takeWhile_oidCharOK_nil (l : List Char) :
    l.takeWhile oidCharOK = [] := by
  cases l with
  | nil => rfl
  | cons c t => simp [List.takeWhile_cons, oidCharOK_false]

/-! ## Claims -/

/-- C1: for every argument list of one of the ten documented call shapes —
`(cname)`, `(cname, cb)`, `(cname, qobj)`, `(cname, qobj, cb)`,
`(cname, qobj, hints)`, `(cname, qobj, hints, cb)`, `(cname, qobj, orarr)`,
`(cname, qobj, orarr, cb)`, `(cname, qobj, orarr, hints)` and
`(cname, qobj, orarr, hints, cb)` — `parseQueryArgs` returns the canonical
5-tuple `[cname, qobj, orarr, hints, cb]` with each supplied component in
its fixed slot, and the defaults `{}`, `[]`, `{}`, `null` for the omitted
`qobj`, `orarr`, `hints`, `cb` respectively. -/
theorem parseQueryArgs_canonical (c : String)
    (qf hf : List (String × JSValue)) (oe : List JSValue) (n : Nat) :
    parseQueryArgs [.vstr c]
      = .ok ⟨.vstr c, .vobj [], .varr [], .vobj [], .vnull⟩ ∧
    parseQueryArgs [.vstr c, .vfun n]
      = .ok ⟨.vstr c, .vobj [], .varr [], .vobj [], .vfun n⟩ ∧
    parseQueryArgs [.vstr c, .vobj qf]
      = .ok ⟨.vstr c, .vobj qf, .varr [], .vobj [], .vnull⟩ ∧
    parseQueryArgs [.vstr c, .vobj qf, .vfun n]
      = .ok ⟨.vstr c, .vobj qf, .varr [], .vobj [], .vfun n⟩ ∧
    parseQueryArgs [.vstr c, .vobj qf, .vobj hf]
      = .ok ⟨.vstr c, .vobj qf, .varr [], .vobj hf, .vnull⟩ ∧
    parseQueryArgs [.vstr c, .vobj qf, .vobj hf, .vfun n]
      = .ok ⟨.vstr c, .vobj qf, .varr [], .vobj hf, .vfun n⟩ ∧
    parseQueryArgs [.vstr c, .vobj qf, .varr oe]
      = .ok ⟨.vstr c, .vobj qf, .varr oe, .vobj [], .vnull⟩ ∧
    parseQueryArgs [.vstr c, .vobj qf, .varr oe, .vfun n]
      = .ok ⟨.vstr c, .vobj qf, .varr oe, .vobj [], .vfun n⟩ ∧
    parseQueryArgs [.vstr c, .vobj qf, .varr oe, .vobj hf]
      = .ok ⟨.vstr c, .vobj qf, .varr oe, .vobj hf, .vnull⟩ ∧
    parseQueryArgs [.vstr c, .vobj qf, .varr oe, .vobj hf, .vfun n]
      = .ok ⟨.vstr c, .vobj qf, .varr oe, .vobj hf, .vfun n⟩ :=
  ⟨rfl, rfl, rfl, rfl, rfl, rfl, rfl, rfl, rfl, rfl⟩

/-- C2: the claim says `EJDB.isValidOID` accepts exactly the 24-character
lowercase-hex strings.  In the source the loop compares the one-character
string `oid[i]` against numeric char codes, so JavaScript coerces it with
`ToNumber`: digits become their values 0–9 and hex letters become `NaN`,
both outside the tested ranges 48–57 and 97–102.  The loop therefore never
advances and the function returns `false` for every input — including the
spec-valid OID `"0123456789abcdef01234567"`. -/
theorem isValidOID_always_false :
    (∀ v, isValidOID v = false) ∧
    isValidOID (.vstr "0123456789abcdef01234567") = false ∧
    oidSpecValid "0123456789abcdef01234567" = true := by
  refine ⟨?_, ?_, ?_⟩
  · intro v
    cases v <;> try rfl
    next s =>
    by_cases h : s.length = 24
    · simp [isValidOID, h, takeWhile_oidCharOK_nil]
    · simp [isValidOID, h]
  · rfl
  · rfl

theorem postprocess_length (jsarr oids : List JSValue) :
    (postprocess jsarr oids).length = jsarr.length := by
  simp [postprocess]

theorem postprocess_stamps (jsarr oids : List JSValue) (i : Nat)
    (fs : List (String × JSValue)) (h : jsarr.getD i .vundefined = .vobj fs) :
    getProp ((postprocess jsarr oids).getD i .vundefined) "_id"
      = oids.getD i .vundefined := by
  have hi : i < jsarr.length := by
    by_contra hn
    push_neg at hn
    rw [List.getD_eq_default _ _ hn] at h
    cases h
  have hstep : (postprocess jsarr oids).getD i .vundefined =
      (let so := jsarr.getD i .vundefined
       if looseNull so then so
       else if getProp so "_id" = oids.getD i .vundefined then so
       else jsSetProp so "_id" (oids.getD i .vundefined)) := by
    unfold postprocess
    rw [List.getD_eq_getElem?_getD, List.getElem?_map,
        List.getElem?_range hi]
    rfl
  rw [hstep, h]
  by_cases he : getProp (JSValue.vobj fs) "_id" = oids.getD i .vundefined
  · simp only [looseNull, Bool.false_eq_true, if_false, if_pos he]
    exact he
  · simp only [looseNull, Bool.false_eq_true, if_false, if_neg he]
    exact getProp_jsSetProp_self fs "_id" (oids.getD i .vundefined)

/-- C3 counterexample: with the engine assigning the OID
`"0123456789abcdef01234567"` to the single saved document `{a: 1}`, the
synchronous `save` returns the (stamped) document array — the OID reaches
the document's `_id` but the return value is not the array of OIDs the
claim states. -/
theorem save_sync_does_not_return_oids :
    save (.ok [.vstr "0123456789abcdef01234567"]) "c"
        (.varr [.vobj [("a", .vnum 1)]]) .vnull .vnull
      = .ok { ret := .varr [.vobj [("a", .vnum 1),
                                   ("_id", .vstr "0123456789abcdef01234567")]]
              docsOut := [.vobj [("a", .vnum 1),
                                 ("_id", .vstr "0123456789abcdef01234567")]]
              engineCalls := [("c", [.vobj [("a", .vnum 1)]], .vobj [])]
              cbArgs := none } ∧
    ¬ ((save (.ok [.vstr "0123456789abcdef01234567"]) "c"
          (.varr [.vobj [("a", .vnum 1)]]) .vnull .vnull).map SaveOutcome.ret
        = .ok (.varr [.vstr "0123456789abcdef01234567"])) := by
  exact ⟨rfl, by decide⟩

/-- C3 (amended): a synchronous `save` (no callback) returns the input
array of documents itself, post-processed in place: one element per input
document in input order, where every document that is not loosely `null`
has `_id` set to the OID the engine assigned at its position.  The OID
array produced by the engine is not the return value (it is delivered only
to a callback in callback mode). -/
theorem save_sync_returns_stamped_docs (oids docs : List JSValue)
    (cname : String) (opts : JSValue)
    (hopts : (typeof opts == "function") = false) :
    save (.ok oids) cname (.varr docs) opts .vnull
      = .ok { ret := .varr (postprocess docs oids)
              docsOut := postprocess docs oids
              engineCalls := [(cname, docs, jsOr opts (.vobj []))]
              cbArgs := none } ∧
    (postprocess docs oids).length = docs.length ∧
    (∀ i fs, docs.getD i .vundefined = .vobj fs →
       getProp ((postprocess docs oids).getD i .vundefined) "_id"
         = oids.getD i .vundefined) := by
  refine ⟨?_, postprocess_length docs oids,
          fun i fs h => postprocess_stamps docs oids i fs h⟩
  simp [save, hopts, looseNull, truthy]

/-- C3 witness for the amended theorem. -/
theorem save_sync_returns_stamped_docs_witness :
    (typeof JSValue.vnull == "function") = false ∧
    save (.ok [.vstr "x"]) "c" (.varr [.vobj []]) .vnull .vnull
      = .ok { ret := .varr (postprocess [.vobj []] [.vstr "x"])
              docsOut := postprocess [.vobj []] [.vstr "x"]
              engineCalls := [("c", [.vobj []], jsOr .vnull (.vobj []))]
              cbArgs := none } :=
  ⟨rfl, (save_sync_returns_stamped_docs [.vstr "x"] [.vobj []] "c"
          .vnull rfl).1⟩

/-- C4: after a successful save of an array of documents, every input
document (a non-null object) at position `i` carries `_id` equal to the
i-th OID the engine produced for this call — in synchronous mode and in
callback mode (where `postprocess` runs before `cb(null, oids)`). -/
theorem save_stamps_ids (oids docs : List JSValue) (cname : String)
    (opts : JSValue) (n i : Nat) (fs : List (String × JSValue))
    (hopts : (typeof opts == "function") = false)
    (hdoc : docs.getD i .vundefined = .vobj fs) :
    (∀ out, save (.ok oids) cname (.varr docs) opts .vnull = .ok out →
       getProp (out.docsOut.getD i .vundefined) "_id" = oids.getD i .vundefined) ∧
    (∀ out, save (.ok oids) cname (.varr docs) opts (.vfun n) = .ok out →
       getProp (out.docsOut.getD i .vundefined) "_id" = oids.getD i .vundefined ∧
       out.cbArgs = some (.vnull, .varr oids)) := by
  constructor
  · intro out hout
    have hout' : save (.ok oids) cname (.varr docs) opts .vnull
        = .ok { ret := .varr (postprocess docs oids)
                docsOut := postprocess docs oids
                engineCalls := [(cname, docs, jsOr opts (.vobj []))]
                cbArgs := none } := by
      simp [save, hopts, looseNull, truthy]
    rw [hout'] at hout
    cases hout
    exact postprocess_stamps docs oids i fs hdoc
  · intro out hout
    have hout' : save (.ok oids) cname (.varr docs) opts (.vfun n)
        = .ok { ret := .vundefined
                docsOut := postprocess docs oids
                engineCalls := [(cname, docs, jsOr opts (.vobj []))]
                cbArgs := some (.vnull, .varr oids) } := by
      simp [save, hopts, looseNull, truthy]
    rw [hout'] at hout
    cases hout
    exact ⟨postprocess_stamps docs oids i fs hdoc, rfl⟩

/-- C4 witness. -/
theorem save_stamps_ids_witness :
    (typeof JSValue.vnull == "function") = false ∧
    ([JSValue.vobj [("a", JSValue.vnum 1)]].getD 0 .vundefined
      = .vobj [("a", .vnum 1)]) ∧
    getProp ((postprocess [.vobj [("a", .vnum 1)]] [.vstr "x"]).getD 0
      .vundefined) "_id" = ([JSValue.vstr "x"].getD 0 .vundefined) := by
  refine ⟨rfl, rfl, ?_⟩
  have h := (save_stamps_ids [.vstr "x"] [.vobj [("a", .vnum 1)]] "c"
    .vnull 3 0 [("a", .vnum 1)] rfl rfl).1
  have := h { ret := .varr (postprocess [.vobj [("a", .vnum 1)]] [.vstr "x"])
              docsOut := postprocess [.vobj [("a", .vnum 1)]] [.vstr "x"]
              engineCalls := [("c", [.vobj [("a", .vnum 1)]],
                               jsOr .vnull (.vobj []))]
              cbArgs := none } (by simp [save, looseNull, truthy])
  simpa using this

/-- C5: in a synchronous `find` call (parsed callback slot `null`), the
flags word passed to the native query is `JBQRYCOUNT` exactly when the
hints object's `$onlycount` is truthy (and `0` otherwise); against the
spec-modelled native query, `find` then returns the matched count as a
number, respectively the cursor. -/
theorem find_onlycount (count : Nat) (cursor : JSValue)
    (args : List JSValue) (qa : QArgs)
    (hp : parseQueryArgs args = .ok qa) (hsync : qa.cb = .vnull) :
    (truthy (getProp qa.hints "$onlycount") = true →
      findCall args
        = .ok { cname := qa.cname
                qlist := buildQueryList qa.qobj qa.orarr qa.hints
                flags := JBQRYCOUNT, cb := .vnull } ∧
      find (queryEngine count cursor) args = .ok (.vnum count)) ∧
    (truthy (getProp qa.hints "$onlycount") = false →
      findCall args
        = .ok { cname := qa.cname
                qlist := buildQueryList qa.qobj qa.orarr qa.hints
                flags := 0, cb := .vnull } ∧
      find (queryEngine count cursor) args = .ok cursor) := by
  constructor
  · intro h
    have hc : findCall args
        = .ok { cname := qa.cname
                qlist := buildQueryList qa.qobj qa.orarr qa.hints
                flags := JBQRYCOUNT, cb := .vnull } := by
      simp [findCall, hp, h, hsync, Except.map]
    exact ⟨hc, by simp [find, hc, queryEngine, Except.map]⟩
  · intro h
    have hc : findCall args
        = .ok { cname := qa.cname
                qlist := buildQueryList qa.qobj qa.orarr qa.hints
                flags := 0, cb := .vnull } := by
      simp [findCall, hp, h, hsync, Except.map]
    exact ⟨hc, by simp [find, hc, queryEngine, JBQRYCOUNT, Except.map]⟩

/-- C5 witness. -/
theorem find_onlycount_witness :
    parseQueryArgs [.vstr "c", .vobj [], .vobj [("$onlycount", .vbool true)]]
      = .ok ⟨.vstr "c", .vobj [], .varr [],
             .vobj [("$onlycount", .vbool true)], .vnull⟩ ∧
    find (queryEngine 5 (.vobj []))
        [.vstr "c", .vobj [], .vobj [("$onlycount", .vbool true)]]
      = .ok (.vnum 5) :=
  ⟨rfl,
   ((find_onlycount 5 (.vobj [])
      [.vstr "c", .vobj [], .vobj [("$onlycount", .vbool true)]]
      ⟨.vstr "c", .vobj [], .varr [],
       .vobj [("$onlycount", .vbool true)], .vnull⟩ rfl rfl).1 rfl).2⟩

/-- C6 counterexample: when the collection-name argument is not a string,
`find` (and `findOne`, `update`, `count`) raise the error synchronously
even though a callback is supplied as the second argument — the failure is
not delivered through the callback. -/
theorem query_ops_throw_despite_callback :
    findCall [.vnum 1, .vfun 0] = .error cnameErr ∧
    findOne [] [.vnum 1, .vfun 0] = .error cnameErr ∧
    updateCall [.vnum 1, .vfun 0] = .error cnameErr ∧
    countCall [.vnum 1, .vfun 0] = .error cnameErr :=
  ⟨rfl, rfl, rfl, rfl⟩

/-- C6 (amended): when the collection-name argument of `find`, `findOne`,
`update` or `count` is not a string, the error is always raised
synchronously (thrown), regardless of whether a callback was supplied, and
the callback is never invoked; all four operations raise the identical
message. -/
theorem nonstring_cname_always_throws (args matched : List JSValue)
    (h : (typeof (argGet args 0) == "string") = false) :
    findCall args = .error cnameErr ∧
    findOne matched args = .error cnameErr ∧
    updateCall args = .error cnameErr ∧
    countCall args = .error cnameErr := by
  have hp : parseQueryArgs args = .error cnameErr := by
    unfold parseQueryArgs
    rw [if_pos h]
  exact ⟨by simp [findCall, hp, Except.map], by simp [findOne, hp],
         by simp [updateCall, hp, Except.map],
         by simp [countCall, hp, Except.map]⟩

/-- C6 witness for the amended theorem. -/
theorem nonstring_cname_always_throws_witness :
    (typeof (argGet [JSValue.vnum 1, JSValue.vfun 0] 0) == "string")
      = false ∧
    findOne [] [.vnum 1, .vfun 0] = .error cnameErr :=
  ⟨rfl, (nonstring_cname_always_throws [.vnum 1, .vfun 0] [] rfl).2.1⟩

/-- C7: a two-argument `dropCollection(cname, cb)` call (second argument
the callback) forwards `prune = false` to the native `removeCollection`
together with that callback; and in every `dropCollection` call the
forwarded prune argument is a boolean (the source coerces it with
`!!prune`). -/
theorem dropCollection_two_args (c : JSValue) (n : Nat) :
    (dropCollection [c, .vfun n]).enginePrune = .vbool false ∧
    (dropCollection [c, .vfun n]).engineCb = .vfun n ∧
    (dropCollection [c, .vfun n]).engineCname = c ∧
    (∀ args : List JSValue, ∃ b : Bool,
       (dropCollection args).enginePrune = .vbool b) :=
  ⟨rfl, rfl, rfl, fun _ => ⟨_, rfl⟩⟩

/-- C8: `removeCollection` forwards its entire argument list to
`dropCollection`, so for every argument list the two perform the same
argument normalization, the same native call, and deliver the same result
(the native `removeCollection` declares no return value, modelled as
`undefined`, which is also what the JavaScript `removeCollection` — which
has no `return` statement — yields). -/
theorem removeCollection_eq_dropCollection :
    ∀ args : List JSValue, removeCollection args = dropCollection args :=
  fun _ => rfl

/-- C9 counterexample: in callback mode `findOne` runs
`cb(null, cursor.object())` inside `try` and `cursor.close()` only in the
`finally`, so the result is delivered while the cursor is still open
(close is trace index 3, after the callback at index 2); and on the
no-match callback branch the cursor is never closed at all. -/
theorem findOne_cb_delivers_before_close :
    (findOne [.vobj [("a", .vnum 1)]] [.vstr "c", .vfun 1]).map
        (fun o => closedBeforeDelivered o.trace) = .ok false ∧
    (findOne [.vobj [("a", .vnum 1)]] [.vstr "c", .vfun 1]).map
        (fun o => List.findIdx? isCloseEv o.trace) = .ok (some 3) ∧
    (findOne [] [.vstr "c", .vfun 1]).map
        (fun o => List.findIdx? isCloseEv o.trace) = .ok none :=
  ⟨rfl, rfl, rfl⟩

/-- C9 (amended): `findOne` mutates the hints object in place, setting its
`$max` to 1 while leaving every other key of the hints object — and the
`qobj`/`orarr` arguments — untouched; in synchronous mode the internal
cursor is closed before the result (first match or `null`) is returned,
while in callback mode the callback receives the result before the cursor
is closed, and when nothing matched the callback branch never closes the
cursor. -/
theorem findOne_hints_frame_and_close (matched args : List JSValue)
    (qa : QArgs) (out : FindOneOutcome)
    (hp : parseQueryArgs args = .ok qa)
    (ho : findOne matched args = .ok out) :
    out.hintsAfter = jsSetProp qa.hints "$max" (.vnum 1) ∧
    (∀ k, k ≠ "$max" → getProp out.hintsAfter k = getProp qa.hints k) ∧
    out.qobjAfter = qa.qobj ∧
    out.orarrAfter = qa.orarr ∧
    (qa.cb = .vnull →
      closedBeforeDelivered out.trace = true ∧
      out.finalCursor.closed = true ∧
      out.result = matched.headD .vnull) ∧
    (truthy qa.cb = true →
      (matched ≠ [] →
        deliveredBeforeClosed out.trace = true ∧
        out.finalCursor.closed = true) ∧
      (matched = [] →
        List.findIdx? isCloseEv out.trace = none ∧
        out.result = .vnull)) := by
  unfold findOne at ho
  rw [hp] at ho
  cases matched with
  | nil =>
    by_cases hcb : truthy qa.cb = true
    · simp [hcb, Cursor.next, Cursor.object] at ho
      subst ho
      refine ⟨rfl, fun k hk => getProp_jsSetProp_ne qa.hints "$max" k _ hk,
        rfl, rfl, ?_, ?_⟩
      · intro hnull
        rw [hnull] at hcb
        cases hcb
      · intro _
        exact ⟨fun hne => absurd rfl hne, fun _ => ⟨rfl, rfl⟩⟩
    · simp [hcb, Cursor.next, Cursor.object] at ho
      subst ho
      refine ⟨rfl, fun k hk => getProp_jsSetProp_ne qa.hints "$max" k _ hk,
        rfl, rfl, ?_, ?_⟩
      · intro _
        exact ⟨rfl, rfl, rfl⟩
      · intro ht
        exact absurd ht hcb
  | cons d t =>
    by_cases hcb : truthy qa.cb = true
    · simp [hcb, Cursor.next, Cursor.object] at ho
      subst ho
      refine ⟨rfl, fun k hk => getProp_jsSetProp_ne qa.hints "$max" k _ hk,
        rfl, rfl, ?_, ?_⟩
      · intro hnull
        rw [hnull] at hcb
        cases hcb
      · intro _
        exact ⟨fun _ => ⟨rfl, rfl⟩, fun hnil => List.noConfusion hnil⟩
    · simp [hcb, Cursor.next, Cursor.object] at ho
      subst ho
      refine ⟨rfl, fun k hk => getProp_jsSetProp_ne qa.hints "$max" k _ hk,
        rfl, rfl, ?_, ?_⟩
      · intro _
        exact ⟨rfl, rfl, rfl⟩
      · intro ht
        exact absurd ht hcb

/-- C9 witness for the amended theorem. -/
theorem findOne_hints_frame_witness :
    parseQueryArgs [.vstr "c"]
      = .ok ⟨.vstr "c", .vobj [], .varr [], .vobj [], .vnull⟩ ∧
    findOne [.vobj []] [.vstr "c"]
      = .ok { call := ⟨.vstr "c", [.vobj [], .vobj [("$max", .vnum 1)]],
                       0, .vnull⟩
              qobjAfter := .vobj []
              orarrAfter := .varr []
              hintsAfter := .vobj [("$max", .vnum 1)]
              result := .vobj []
              finalCursor := ⟨[.vobj []], 1, true⟩
              trace := [.nextEv true, .objectEv (.vobj []), .closeEv,
                        .retEv (.vobj [])] } ∧
    (JSValue.vobj [("$max", .vnum 1)])
      = jsSetProp (.vobj []) "$max" (.vnum 1) :=
  ⟨rfl, rfl,
   (findOne_hints_frame_and_close [.vobj []] [.vstr "c"]
      ⟨.vstr "c", .vobj [], .varr [], .vobj [], .vnull⟩
      { call := ⟨.vstr "c", [.vobj [], .vobj [("$max", .vnum 1)]],
                 0, .vnull⟩
        qobjAfter := .vobj []
        orarrAfter := .varr []
        hintsAfter := .vobj [("$max", .vnum 1)]
        result := .vobj []
        finalCursor := ⟨[.vobj []], 1, true⟩
        trace := [.nextEv true, .objectEv (.vobj []), .closeEv,
                  .retEv (.vobj [])] } rfl rfl).1⟩

/-- C10: `save` with a `null` or `undefined` document argument returns an
empty array at once — no native call is made, no document array is
touched, no callback fires and no error is raised — and a single non-array
(truthy) document is wrapped into a one-element array, making `save` of
one object and of the one-element array containing it fully equivalent. -/
theorem save_falsy_and_wrapping (er : Except JSValue (List JSValue))
    (cname : String) (opts cb v : JSValue)
    (hv : truthy v = true) (hna : isArray v = false) :
    save er cname .vnull opts cb
      = .ok { ret := .varr [], docsOut := []
              engineCalls := [], cbArgs := none } ∧
    save er cname .vundefined opts cb
      = .ok { ret := .varr [], docsOut := []
              engineCalls := [], cbArgs := none } ∧
    save er cname v opts cb = save er cname (.varr [v]) opts cb := by
  refine ⟨rfl, rfl, ?_⟩
  cases v with
  | vundefined => cases hv
  | vnull => cases hv
  | varr es => cases hna
  | vbool b =>
    have hb : b = true := by simpa [truthy] using hv
    subst hb
    rfl
  | vnum m =>
    simp only [save, hv]
    rfl
  | vstr s =>
    simp only [save, hv]
    rfl
  | vfun id => rfl
  | vobj fs => rfl

/-- C10 witness. -/
theorem save_falsy_and_wrapping_witness :
    truthy (JSValue.vobj [("b", .vnum 2)]) = true ∧
    isArray (JSValue.vobj [("b", .vnum 2)]) = false ∧
    save (.ok [.vstr "x"]) "c" (.vobj [("b", .vnum 2)]) .vnull .vnull
      = save (.ok [.vstr "x"]) "c" (.varr [.vobj [("b", .vnum 2)]])
          .vnull .vnull :=
  ⟨rfl, rfl,
   (save_falsy_and_wrapping (.ok [.vstr "x"]) "c" .vnull .vnull
      (.vobj [("b", .vnum 2)]) rfl rfl).2.2⟩

end Ejdb
